import Mathlib

/-!
Shallow embedding of the proximity-filtered building-serving layer of
`src/stages/serve_buildings/index.js`, together with proofs of the testable
properties stated for it.

Modelling conventions:
* JS numbers appearing in the data (coordinates, heights, distances) are
  embedded as rationals `ℚ`; `Math.sqrt` is handled by replacing the
  comparison `Math.sqrt(s) <= d` with the decidable test
  `0 ≤ d ∧ s ≤ d * d`, proved equal to the real-number comparison
  `Real.sqrt s ≤ d` in `distanceLE_iff_sqrt`.
* A JS object property that may be absent is an `Option` field; an absent
  property (reading it yields `undefined`) is `none`.
* The per-request closure state `usedModelCache` (an object used as a set of
  emitted model ids) is threaded explicitly as a `List String`.
-/

namespace ServeBuildings

/-- A planar coordinate `{x, z}` (see `positionScheme`, lines 66-73). -/
@[ext]
structure Point where
  x : ℚ
  z : ℚ
deriving DecidableEq

/-- One building footprint record of `buildingsData`: opaque `id`, optional
`address`, numeric `height`, vertex list `nodes`. -/
structure Building where
  id : String
  address : Option String
  height : ℚ
  nodes : List Point
deriving DecidableEq

/-- One entry of the static `modelsData` list (lines 10-16). -/
structure ModelEntry where
  modelId : String
  modelUrl : String
  buildingIds : List String
deriving DecidableEq

/-- The hard-coded `modelsData` list (lines 10-16). -/
def modelsData : List ModelEntry :=
  [{ modelId := "1", modelUrl := "/itc.fbx",
     buildingIds := ["59831701", "59831708", "59831705"] }]

/-- `modelsCache` (lines 18-22): the JS object built by
`modelsData.reduce(...)`, where each `acc[bid] = modelId` assignment
overrides any earlier binding of the same key.  Embedded as a lookup
function `String → Option String`, parametrised by the model list. -/
def modelsCache (models : List ModelEntry) : String → Option String :=
  models.foldl
    (fun acc item =>
      item.buildingIds.foldl
        (fun a bid => fun s => if s = bid then some item.modelId else a s) acc)
    (fun _ => none)

/-- The squared Euclidean distance
`dx * dx + dz * dz` from `calculateDistance` (lines 27-31); the source
returns `Math.sqrt` of this quantity. -/
def calculateDistanceSq (point1 point2 : Point) : ℚ :=
  (point1.x - point2.x) * (point1.x - point2.x) +
    (point1.z - point2.z) * (point1.z - point2.z)

/-- The comparison `calculateDistance(node, center) <= maxDistance`
(line 37) in decidable squared form.  `distanceLE_iff_sqrt` proves it
equivalent to the real-number comparison with `Math.sqrt` that the source
performs. -/
def distanceLE (point1 point2 : Point) (maxDistance : ℚ) : Bool :=
  decide (0 ≤ maxDistance) &&
    decide (calculateDistanceSq point1 point2 ≤ maxDistance * maxDistance)

/-- `isBuildingWithinDistance` (lines 34-42): true iff some vertex of the
building passes the distance comparison (the for loop of the source with early
return). -/
def isBuildingWithinDistance (building : Building) (center : Point)
    (maxDistance : ℚ) : Bool :=
  building.nodes.any (fun node => distanceLE node center maxDistance)

/-- The value produced by `filterPolygon` (lines 124-149) for one surviving
polygon: the fields of the building plus the optional `modelId` / `modelUrl`
properties added by the substitution branch (absent, i.e. `none`, on a
passed-through polygon). -/
structure PolyData where
  id : String
  address : Option String
  height : ℚ
  nodes : List Point
  modelId : Option String
  modelUrl : Option String
deriving DecidableEq

/-- The pass-through outcome of `filterPolygon` (`return polygon`,
line 148): all building fields unchanged, no model properties. -/
def passthrough (polygon : Building) : PolyData :=
  { id := polygon.id, address := polygon.address, height := polygon.height,
    nodes := polygon.nodes, modelId := none, modelUrl := none }

/-- The substitution outcome of `filterPolygon` (lines 139-144): the spread
`{...polygon, nodes: [], modelId, modelUrl}` where `modelUrl` is read off
the entry `modelsData.find((d) => d.modelId === modelId)`.  The `find` may
in principle fail; the resulting dereference of `undefined` is modelled by
`modelUrl` being `none` (shown unreachable for a cache built from the same
model list). -/
def substEntry (models : List ModelEntry) (polygon : Building)
    (modelId : String) : PolyData :=
  { id := polygon.id, address := polygon.address, height := polygon.height,
    nodes := [], modelId := some modelId,
    modelUrl :=
      (models.find? (fun d => decide (d.modelId = modelId))).map
        ModelEntry.modelUrl }

/-- `filterPolygon` (lines 124-149), the closure returned by
`createMapPolygonData`: looks the id of the polygon up in `modelsCache`; on a
truthy result (`if (modelId)` — false for `undefined` and for the empty
string) either emits the substituted entry and marks the model id used, or
drops the polygon (`return null`) when the id was already used; otherwise
passes the polygon through.  The mutable `usedModelCache` object is the
explicit `used` list; the function returns the updated list and the
emitted value (`none` for `null`). -/
def filterPolygon (models : List ModelEntry) (used : List String)
    (polygon : Building) : List String × Option PolyData :=
  match modelsCache models polygon.id with
  | some modelId =>
    if modelId = "" then (used, some (passthrough polygon))
    else if modelId ∈ used then (used, none)
    else (modelId :: used, some (substEntry models polygon modelId))
  | none => (used, some (passthrough polygon))

/-- The `.map(createMapPolygonData())` step (line 159): applies
`filterPolygon` to each building left to right, threading the per-call
`usedModelCache` state. -/
def mapFilterPolygon (models : List ModelEntry) :
    List String → List Building → List (Option PolyData)
  | _, [] => []
  | used, b :: bs =>
    (filterPolygon models used b).2 ::
      mapFilterPolygon models (filterPolygon models used b).1 bs

/-- `filteredBuildings` (lines 155-160): filter the dataset by the vertex
proximity test, map the polygons through `filterPolygon` with a fresh
`usedModelCache`, and drop the `null`s (`.filter((x) => x !== null)`,
modelled by `List.filterMap id`). -/
def filteredBuildings (models : List ModelEntry)
    (buildingsData : List Building) (position : Point) (distance : ℚ) :
    List PolyData :=
  (mapFilterPolygon models []
      (buildingsData.filter
        (fun building => isBuildingWithinDistance building position distance))).filterMap
    id

/-- One entry of the response body.  The final projection (lines 167-173)
builds `{ address, height, nodes }`, so the `modelId` / `modelUrl`
properties are always absent (`none`) on it; the fields are kept in the
type so that their absence is expressible. -/
structure ResponseBuilding where
  address : Option String
  height : ℚ
  nodes : List Point
  modelId : Option String
  modelUrl : Option String
deriving DecidableEq

/-- `responseBuildings` (lines 166-173): project each surviving entry to
`{ address, height, nodes }`; any other property of the filtered value is
absent from the result. -/
def responseBuildings (filtered : List PolyData) : List ResponseBuilding :=
  filtered.map (fun p =>
    { address := p.address, height := p.height, nodes := p.nodes,
      modelId := none, modelUrl := none })

/-- The body of the PUT `/buildings` handler after validation
(lines 114-178): filter, substitute, project. -/
def processQuery (models : List ModelEntry) (buildingsData : List Building)
    (position : Point) (distance : ℚ) : List ResponseBuilding :=
  responseBuildings (filteredBuildings models buildingsData position distance)

/-- A possibly missing / malformed `position` object of a request body:
each of `x`, `z` is `none` when missing or not numeric. -/
structure PartialPosition where
  x : Option ℚ
  z : Option ℚ
deriving DecidableEq

/-- A PUT `/buildings` request body as received, before schema validation:
`position` and `distance` may be missing (`none`), and the position
components may be missing or non-numeric. -/
structure RequestBody where
  position : Option PartialPosition
  distance : Option ℚ
deriving DecidableEq

/-- The body schema of the endpoint (lines 79-87 with `positionScheme`,
lines 66-73): `position` and `distance` required, `position` requires
numeric `x` and `z`, `distance` is a number with `minimum: 0`. -/
def validateBody (body : RequestBody) : Bool :=
  match body.position, body.distance with
  | some p, some d => p.x.isSome && p.z.isSome && decide (0 ≤ d)
  | _, _ => false

/-- The endpoint as a whole: the schema is checked before the handler runs
(fastify rejects a non-conforming body with a 400 client error and never
invokes the handler), then the handler computes `processQuery`. -/
def handleBuildings (models : List ModelEntry) (buildingsData : List Building)
    (body : RequestBody) : Except String (List ResponseBuilding) :=
  match body.position, body.distance with
  | some p, some d =>
    match p.x, p.z with
    | some x, some z =>
      if 0 ≤ d then
        Except.ok (processQuery models buildingsData { x := x, z := z } d)
      else Except.error "body/distance must be >= 0"
    | _, _ => Except.error "body/position must have required properties x, z"
  | _, _ => Except.error "body must have required properties position, distance"

/-- The process-wide state read by the query handler: `buildingsData` and
the static model list (from which `modelsCache` is derived).  Loaded once
by `loadData` before the server accepts traffic. -/
structure ServerState where
  buildingsData : List Building
  models : List ModelEntry
deriving DecidableEq

/-- A validated proximity query. -/
structure Query where
  position : Point
  distance : ℚ
deriving DecidableEq

/-- One handler invocation as a state transition: it computes the response
from the loaded state and leaves that state behind for the next request.
The handler reads `buildingsData` / `modelsCache` and allocates its
`usedModelCache` locally (line 122), so the state it returns is the state
it received. -/
def serverQuery (s : ServerState) (q : Query) :
    List ResponseBuilding × ServerState :=
  (processQuery s.models s.buildingsData q.position q.distance, s)

/-- Whether some building of the list is mapped to model group `g` by
`modelsCache`. -/
def hasGroup (models : List ModelEntry) (g : String) (bs : List Building) :
    Bool :=
  bs.any (fun b => modelsCache models b.id == some g)

/-- A concrete dataset: two buildings whose ids belong to the model group
`"1"` of `modelsData`, both with a vertex at the origin. -/
def dedupExample : List Building :=
  [{ id := "59831701", address := some "Main St 1", height := 10,
     nodes := [{ x := 0, z := 0 }] },
   { id := "59831708", address := some "Main St 2", height := 12,
     nodes := [{ x := 0, z := 0 }] }]

/-- A concrete building whose id is not mapped by `modelsData`. -/
def plainBuilding : Building :=
  { id := "A", address := some "Main St 9", height := 5,
    nodes := [{ x := 0, z := 0 }, { x := 10, z := 0 }] }

/-- A concrete building with one vertex at `(3, 4)`. -/
def boundaryBuilding : Building :=
  { id := "w", address := none, height := 0, nodes := [{ x := 3, z := 4 }] }

/-- A concrete building with no vertices. -/
def emptyNodesBuilding : Building :=
  { id := "e", address := none, height := 1, nodes := [] }

/-- The origin point. -/
def originPoint : Point :=
  { x := 0, z := 0 }

/-- A request body with a well-formed position and a negative distance. -/
def negativeDistanceBody : RequestBody :=
  { position := some { x := some 0, z := some 0 }, distance := some (-1) }

/-- The substituted entry that the `dedupExample` query produces. -/
def substExample : PolyData :=
  { id := "59831701", address := some "Main St 1", height := 10,
    nodes := [], modelId := some "1", modelUrl := some "/itc.fbx" }

section Theorems

/-- The squared distance is nonnegative. -/
theorem calculateDistanceSq_nonneg (p1 p2 : Point) :
    0 ≤ calculateDistanceSq p1 p2 :=
  add_nonneg (mul_self_nonneg _) (mul_self_nonneg _)

/-- Bridging lemma: the decidable test `distanceLE` agrees with the
comparison `Math.sqrt(dx*dx + dz*dz) <= maxDistance` of the source, read
over the real numbers. -/
theorem distanceLE_iff_sqrt (p1 p2 : Point) (d : ℚ) :
    distanceLE p1 p2 d = true ↔
      Real.sqrt ((calculateDistanceSq p1 p2 : ℚ) : ℝ) ≤ (d : ℝ) := by
  rw [Real.sqrt_le_iff]
  simp only [distanceLE, Bool.and_eq_true, decide_eq_true_eq]
  constructor
  · rintro ⟨hd, hle⟩
    refine ⟨by exact_mod_cast hd, ?_⟩
    have : ((calculateDistanceSq p1 p2 : ℚ) : ℝ) ≤ ((d * d : ℚ) : ℝ) := by
      exact_mod_cast hle
    calc ((calculateDistanceSq p1 p2 : ℚ) : ℝ) ≤ ((d * d : ℚ) : ℝ) := this
      _ = (d : ℝ) ^ 2 := by push_cast; ring
  · rintro ⟨hd, hle⟩
    refine ⟨by exact_mod_cast hd, ?_⟩
    have : ((calculateDistanceSq p1 p2 : ℚ) : ℝ) ≤ ((d * d : ℚ) : ℝ) := by
      calc ((calculateDistanceSq p1 p2 : ℚ) : ℝ) ≤ (d : ℝ) ^ 2 := hle
        _ = ((d * d : ℚ) : ℝ) := by push_cast; ring
    exact_mod_cast this

/-- The test `distanceLE p q 0` holds exactly at `p = q`. -/
theorem distanceLE_zero_iff (p q : Point) :
    distanceLE p q 0 = true ↔ p = q := by
  simp only [distanceLE, Bool.and_eq_true, decide_eq_true_eq]
  constructor
  · rintro ⟨-, hle⟩
    have hsq : calculateDistanceSq p q = 0 := by
      have := calculateDistanceSq_nonneg p q
      have hle2 : calculateDistanceSq p q ≤ 0 := by
        simpa using hle
      linarith
    have hx : (p.x - q.x) * (p.x - q.x) = 0 := by
      have h1 := mul_self_nonneg (p.x - q.x)
      have h2 := mul_self_nonneg (p.z - q.z)
      simp only [calculateDistanceSq] at hsq
      linarith
    have hz : (p.z - q.z) * (p.z - q.z) = 0 := by
      have h1 := mul_self_nonneg (p.x - q.x)
      have h2 := mul_self_nonneg (p.z - q.z)
      simp only [calculateDistanceSq] at hsq
      linarith
    have hx2 : p.x = q.x := by
      have := mul_self_eq_zero.1 hx
      linarith
    have hz2 : p.z = q.z := by
      have := mul_self_eq_zero.1 hz
      linarith
    exact Point.ext hx2 hz2
  · rintro rfl
    refine ⟨le_refl 0, ?_⟩
    simp [calculateDistanceSq]

/-- Equation for `filterPolygon` when the id of the polygon is not in the
cache. -/
theorem filterPolygon_eq_none (models : List ModelEntry) (used : List String)
    (b : Building) (h : modelsCache models b.id = none) :
    filterPolygon models used b = (used, some (passthrough b)) := by
  unfold filterPolygon
  rw [h]

/-- Equation for `filterPolygon` when the id of the polygon is in the
cache. -/
theorem filterPolygon_eq_some (models : List ModelEntry) (used : List String)
    (b : Building) (m : String) (h : modelsCache models b.id = some m) :
    filterPolygon models used b =
      (if m = "" then (used, some (passthrough b))
       else if m ∈ used then (used, none)
       else (m :: used, some (substEntry models b m))) := by
  unfold filterPolygon
  rw [h]

/-- Any value emitted by `filterPolygon` keeps the address and the height
of the polygon it came from. -/
theorem filterPolygon_some_fields (models : List ModelEntry)
    (used used2 : List String) (b : Building) (r0 : PolyData)
    (h : filterPolygon models used b = (used2, some r0)) :
    r0.address = b.address ∧ r0.height = b.height := by
  rcases hmc : modelsCache models b.id with _ | m
  · rw [filterPolygon_eq_none models used b hmc] at h
    simp only [Prod.mk.injEq, Option.some.injEq] at h
    rw [← h.2]
    exact ⟨rfl, rfl⟩
  · rw [filterPolygon_eq_some models used b m hmc] at h
    split_ifs at h
    · simp only [Prod.mk.injEq, Option.some.injEq] at h
      rw [← h.2]
      exact ⟨rfl, rfl⟩
    · simp only [Prod.mk.injEq] at h
      exact absurd h.2 (by simp)
    · simp only [Prod.mk.injEq, Option.some.injEq] at h
      rw [← h.2]
      exact ⟨rfl, rfl⟩

/-- Origin of the values of the substitution pass: every element of the
output of `mapFilterPolygon` (with the `null`s removed) comes from some
building of the input list, either passed through unchanged or substituted
for a model group the cache maps its id to. -/
theorem mem_mapFilterPolygon (models : List ModelEntry) :
    ∀ (bs : List Building) (used : List String) (r : PolyData),
      r ∈ (mapFilterPolygon models used bs).filterMap id →
      ∃ b ∈ bs,
        (r = passthrough b ∨
          ∃ m, modelsCache models b.id = some m ∧ m ≠ "" ∧
            r = substEntry models b m) := by
  intro bs
  induction bs with
  | nil =>
    intro used r hr
    simp [mapFilterPolygon] at hr
  | cons b bs ih =>
    intro used r hr
    rw [mapFilterPolygon] at hr
    rcases hfp : filterPolygon models used b with ⟨used2, opt⟩
    rw [hfp] at hr
    have htail :
        r ∈ (mapFilterPolygon models used2 bs).filterMap id →
        ∃ b2 ∈ b :: bs,
          (r = passthrough b2 ∨
            ∃ m, modelsCache models b2.id = some m ∧ m ≠ "" ∧
              r = substEntry models b2 m) := by
      intro h
      obtain ⟨b2, hb2, hcase⟩ := ih used2 r h
      exact ⟨b2, List.mem_cons_of_mem _ hb2, hcase⟩
    rcases opt with _ | r0
    · simp only [List.filterMap_cons, id] at hr
      exact htail hr
    · simp only [List.filterMap_cons, id] at hr
      rcases List.mem_cons.1 hr with rfl | h
      · -- the head value: analyze filterPolygon
        rcases hmc : modelsCache models b.id with _ | m
        · rw [filterPolygon_eq_none models used b hmc] at hfp
          simp only [Prod.mk.injEq, Option.some.injEq] at hfp
          exact ⟨b, List.mem_cons_self _ _, Or.inl hfp.2.symm⟩
        · rw [filterPolygon_eq_some models used b m hmc] at hfp
          by_cases hm0 : m = ""
          · rw [if_pos hm0] at hfp
            simp only [Prod.mk.injEq, Option.some.injEq] at hfp
            exact ⟨b, List.mem_cons_self _ _, Or.inl hfp.2.symm⟩
          · rw [if_neg hm0] at hfp
            by_cases hmu : m ∈ used
            · rw [if_pos hmu] at hfp
              simp at hfp
            · rw [if_neg hmu] at hfp
              simp only [Prod.mk.injEq, Option.some.injEq] at hfp
              exact ⟨b, List.mem_cons_self _ _,
                Or.inr ⟨m, hmc, hm0, hfp.2.symm⟩⟩
      · exact htail h

/-- A building whose id is not in the substitution cache is passed through
by the substitution pass whenever it is in the input list, whatever the
state of the used-model set. -/
theorem passthrough_mem_mapFilterPolygon (models : List ModelEntry)
    (b : Building) (hnone : modelsCache models b.id = none) :
    ∀ (bs : List Building), b ∈ bs → ∀ used,
      passthrough b ∈ (mapFilterPolygon models used bs).filterMap id := by
  intro bs
  induction bs with
  | nil => intro hb; cases hb
  | cons b2 bs ih =>
    intro hb used
    rw [mapFilterPolygon]
    rcases List.mem_cons.1 hb with rfl | hb2
    · rw [filterPolygon_eq_none models used b hnone]
      simp [List.filterMap_cons]
    · rcases hfp : filterPolygon models used b2 with ⟨used2, opt⟩
      have hrec := ih hb2 used2
      rcases opt with _ | r0
      · simpa [List.filterMap_cons] using hrec
      · simp only [List.filterMap_cons, id]
        exact List.mem_cons_of_mem _ hrec

/-- The address-height projection of the output of the substitution pass
is a sublist of the projection of its input: each building contributes at
most one value, in place. -/
theorem mapFilterPolygon_sublist (models : List ModelEntry) :
    ∀ (bs : List Building) (used : List String),
      (((mapFilterPolygon models used bs).filterMap id).map
          (fun r => (r.address, r.height))).Sublist
        (bs.map (fun b => (b.address, b.height))) := by
  intro bs
  induction bs with
  | nil =>
    intro used
    simp [mapFilterPolygon]
  | cons b bs ih =>
    intro used
    rw [mapFilterPolygon]
    rcases hfp : filterPolygon models used b with ⟨used2, opt⟩
    rcases opt with _ | r0
    · simp only [List.filterMap_cons, id, List.map_cons]
      exact (ih used2).cons _
    · obtain ⟨ha, hh⟩ := filterPolygon_some_fields models used used2 b r0 hfp
      simp only [List.filterMap_cons, id, List.map_cons, ha, hh]
      exact (ih used2).cons₂ _

/-- Unfolding of `hasGroup` on a cons cell. -/
theorem hasGroup_cons (models : List ModelEntry) (g : String) (b : Building)
    (bs : List Building) :
    hasGroup models g (b :: bs) =
      ((modelsCache models b.id == some g) || hasGroup models g bs) := by
  simp [hasGroup, List.any_cons]

/-- Dedup invariant of the substitution pass: among the emitted values,
the number carrying a given nonempty model group `g` is `0` when the group
is already marked used, and otherwise `1` exactly when some input building
is mapped to `g`. -/
theorem countP_mapFilterPolygon (models : List ModelEntry) (g : String)
    (hg : g ≠ "") :
    ∀ (bs : List Building) (used : List String),
      ((mapFilterPolygon models used bs).filterMap id).countP
          (fun r => r.modelId == some g) =
        if g ∈ used then 0 else if hasGroup models g bs then 1 else 0 := by
  intro bs
  induction bs with
  | nil =>
    intro used
    simp [mapFilterPolygon, hasGroup]
  | cons b bs ih =>
    intro used
    rw [mapFilterPolygon]
    have hpb : ((passthrough b).modelId == some g) = false := by
      simp [passthrough]
    rcases hmc : modelsCache models b.id with _ | m
    · rw [filterPolygon_eq_none models used b hmc]
      simp only [List.filterMap_cons, id, List.countP_cons]
      have hhead : (modelsCache models b.id == some g) = false := by
        rw [hmc]
        simp
      rw [hpb, if_neg Bool.false_ne_true, add_zero, ih used, hasGroup_cons,
        hhead, Bool.false_or]
    · rw [filterPolygon_eq_some models used b m hmc]
      by_cases hm0 : m = ""
      · rw [if_pos hm0]
        simp only [List.filterMap_cons, id, List.countP_cons]
        have hhead : (modelsCache models b.id == some g) = false := by
          rw [hmc, hm0]
          simp only [beq_eq_false_iff_ne, ne_eq, Option.some.injEq]
          exact Ne.symm hg
        rw [hpb, if_neg Bool.false_ne_true, add_zero, ih used, hasGroup_cons,
          hhead, Bool.false_or]
      · rw [if_neg hm0]
        by_cases hmu : m ∈ used
        · rw [if_pos hmu]
          simp only [List.filterMap_cons, id]
          rw [ih used]
          by_cases hgu : g ∈ used
          · rw [if_pos hgu, if_pos hgu]
          · have hmg : ¬m = g := fun h => hgu (h ▸ hmu)
            have hhead : (modelsCache models b.id == some g) = false := by
              rw [hmc]
              simp only [beq_eq_false_iff_ne, ne_eq, Option.some.injEq]
              exact hmg
            rw [if_neg hgu, if_neg hgu, hasGroup_cons, hhead, Bool.false_or]
        · rw [if_neg hmu]
          simp only [List.filterMap_cons, id, List.countP_cons]
          rw [ih (m :: used)]
          by_cases hgm : m = g
          · subst hgm
            have hsub : ((substEntry models b m).modelId == some m) = true := by
              simp [substEntry]
            have hhead : (modelsCache models b.id == some m) = true := by
              rw [hmc]
              simp
            rw [hsub, if_pos rfl, if_pos (List.mem_cons_self m used),
              if_neg hmu, hasGroup_cons, hhead, Bool.true_or]
            simp
          · have hsub : ((substEntry models b m).modelId == some g) = false := by
              simp only [substEntry, beq_eq_false_iff_ne, ne_eq,
                Option.some.injEq]
              exact hgm
            have hmem : (g ∈ m :: used) ↔ g ∈ used := by
              constructor
              · intro h
                rcases List.mem_cons.1 h with h2 | h2
                · exact absurd h2.symm hgm
                · exact h2
              · exact List.mem_cons_of_mem _
            have hhead : (modelsCache models b.id == some g) = false := by
              rw [hmc]
              simp only [beq_eq_false_iff_ne, ne_eq, Option.some.injEq]
              exact hgm
            rw [hsub, if_neg Bool.false_ne_true, add_zero,
              if_congr hmem rfl rfl, hasGroup_cons, hhead, Bool.false_or]

/-- Every binding placed in the cache by the inner fold over one model
entry is either inherited from the accumulator or carries the model id of
that entry. -/
theorem buildingIds_foldl_lookup (item : ModelEntry) :
    ∀ (bids : List String) (acc : String → Option String) (s m : String),
      (bids.foldl
          (fun a bid => fun s2 =>
            if s2 = bid then some item.modelId else a s2) acc) s = some m →
      acc s = some m ∨ m = item.modelId := by
  intro bids
  induction bids with
  | nil =>
    intro acc s m h
    exact Or.inl h
  | cons bid bids ih =>
    intro acc s m h
    rw [List.foldl_cons] at h
    rcases ih _ s m h with h2 | h2
    · by_cases hs : s = bid
      · rw [if_pos hs] at h2
        exact Or.inr (Option.some.injEq _ _ ▸ h2).symm
      · rw [if_neg hs] at h2
        exact Or.inl h2
    · exact Or.inr h2

/-- Every id the cache maps to a model group was placed there from some
entry of the model list carrying that group id. -/
theorem modelsCache_some_mem (models : List ModelEntry) (s m : String)
    (h : modelsCache models s = some m) : ∃ e ∈ models, e.modelId = m := by
  suffices hgen :
      ∀ (ms : List ModelEntry) (acc : String → Option String),
        (ms.foldl
            (fun acc2 item =>
              item.buildingIds.foldl
                (fun a bid => fun s2 =>
                  if s2 = bid then some item.modelId else a s2) acc2) acc) s =
          some m →
        acc s = some m ∨ ∃ e ∈ ms, e.modelId = m by
    rcases hgen models (fun _ => none) h with h2 | h2
    · cases h2
    · exact h2
  intro ms
  induction ms with
  | nil =>
    intro acc h2
    exact Or.inl h2
  | cons item ms ih =>
    intro acc h2
    rw [List.foldl_cons] at h2
    rcases ih _ h2 with h3 | h3
    · rcases buildingIds_foldl_lookup item item.buildingIds acc s m h3 with h4 | h4
      · exact Or.inl h4
      · exact Or.inr ⟨item, List.mem_cons_self _ _, h4.symm⟩
    · obtain ⟨e, he, hem⟩ := h3
      exact Or.inr ⟨e, List.mem_cons_of_mem _ he, hem⟩

/-- C6: the radius test is inclusive at the boundary: a building having a
vertex whose Euclidean distance from the query position is exactly the
queried distance passes `isBuildingWithinDistance` (the comparison is `<=`,
not a strict `<`). -/
theorem C6_boundary_inclusive (b : Building) (center : Point) (d : ℚ)
    (h : ∃ node ∈ b.nodes,
      Real.sqrt ((calculateDistanceSq node center : ℚ) : ℝ) = (d : ℝ)) :
    isBuildingWithinDistance b center d = true := by
  obtain ⟨node, hmem, heq⟩ := h
  have hle := (distanceLE_iff_sqrt node center d).2 (le_of_eq heq)
  simp only [isBuildingWithinDistance, List.any_eq_true]
  exact ⟨node, hmem, hle⟩

/-- Witness for C6 at a concrete input: the vertex `(3, 4)` is at distance
exactly `5` from the origin and the building is accepted at radius `5`. -/
theorem C6_boundary_inclusive_witness :
    (∃ node ∈ boundaryBuilding.nodes,
      Real.sqrt ((calculateDistanceSq node originPoint : ℚ) : ℝ) =
        ((5 : ℚ) : ℝ))
    ∧ isBuildingWithinDistance boundaryBuilding originPoint 5 = true := by
  have hq : calculateDistanceSq { x := 3, z := 4 } originPoint = 25 := by
    norm_num [calculateDistanceSq, originPoint]
  have hs : Real.sqrt
      ((calculateDistanceSq { x := 3, z := 4 } originPoint : ℚ) : ℝ) =
      ((5 : ℚ) : ℝ) := by
    rw [hq, show ((25 : ℚ) : ℝ) = (5 : ℝ) ^ 2 by norm_num,
      Real.sqrt_sq (by norm_num : (0 : ℝ) ≤ 5)]
    norm_num
  have pf : ∃ node ∈ boundaryBuilding.nodes,
      Real.sqrt ((calculateDistanceSq node originPoint : ℚ) : ℝ) =
        ((5 : ℚ) : ℝ) :=
    ⟨{ x := 3, z := 4 }, by simp [boundaryBuilding], hs⟩
  exact ⟨pf, C6_boundary_inclusive _ _ _ pf⟩

/-- C7: at distance `0`, the candidate set consists of exactly the
buildings of the dataset having a vertex coincident with the query
position. -/
theorem C7_distance_zero (data : List Building) (B : Building) (pos : Point) :
    B ∈ data.filter (fun b => isBuildingWithinDistance b pos 0) ↔
      B ∈ data ∧ ∃ node ∈ B.nodes, node = pos := by
  rw [List.mem_filter]
  simp only [isBuildingWithinDistance, List.any_eq_true, distanceLE_zero_iff]

/-- C10: a building with an empty `nodes` list never passes the vertex
proximity test, and so never enters the candidate set, whatever the query. -/
theorem C10_empty_nodes (b : Building) (data : List Building) (pos : Point)
    (d : ℚ) (h : b.nodes = []) :
    isBuildingWithinDistance b pos d = false ∧
      b ∉ data.filter (fun b2 => isBuildingWithinDistance b2 pos d) := by
  have h1 : isBuildingWithinDistance b pos d = false := by
    simp [isBuildingWithinDistance, h]
  refine ⟨h1, fun hmem => ?_⟩
  have := (List.mem_filter.1 hmem).2
  rw [h1] at this
  exact Bool.false_ne_true this

/-- Witness for C10 at a concrete input: a building with no vertices is
rejected even at a huge radius. -/
theorem C10_empty_nodes_witness :
    emptyNodesBuilding.nodes = []
    ∧ isBuildingWithinDistance emptyNodesBuilding originPoint 1000000 = false
    ∧ emptyNodesBuilding ∉
        List.filter
          (fun b2 => isBuildingWithinDistance b2 originPoint 1000000)
          [emptyNodesBuilding] := by
  obtain ⟨h1, h2⟩ := C10_empty_nodes emptyNodesBuilding [emptyNodesBuilding]
    originPoint 1000000 rfl
  exact ⟨rfl, h1, h2⟩

/-- The vertex proximity test holds iff some vertex is within Euclidean
distance (`Math.sqrt` comparison, over the reals) of the center. -/
theorem isBuildingWithinDistance_iff_sqrt (b : Building) (center : Point)
    (d : ℚ) :
    isBuildingWithinDistance b center d = true ↔
      ∃ node ∈ b.nodes,
        Real.sqrt ((calculateDistanceSq node center : ℚ) : ℝ) ≤ (d : ℝ) := by
  simp only [isBuildingWithinDistance, List.any_eq_true, distanceLE_iff_sqrt]

/-- C2: a building whose id is not in the substitution mapping appears in
the filtered list — with id, address, height and nodes unchanged and no
model properties — iff some vertex of it is within Euclidean distance `d`
of the query position; and when it does, its projection appears in the
response. -/
theorem C2_unmapped_inclusion (models : List ModelEntry)
    (data : List Building) (B : Building) (pos : Point) (d : ℚ)
    (_hd : 0 ≤ d) (hnodup : (data.map Building.id).Nodup) (hB : B ∈ data)
    (hnone : modelsCache models B.id = none) :
    (passthrough B ∈ filteredBuildings models data pos d ↔
      ∃ node ∈ B.nodes,
        Real.sqrt ((calculateDistanceSq node pos : ℚ) : ℝ) ≤ (d : ℝ))
    ∧ (isBuildingWithinDistance B pos d = true →
        ({ address := B.address, height := B.height, nodes := B.nodes,
           modelId := none, modelUrl := none } : ResponseBuilding) ∈
          processQuery models data pos d) := by
  have hiff : passthrough B ∈ filteredBuildings models data pos d ↔
      isBuildingWithinDistance B pos d = true := by
    constructor
    · intro hmem
      unfold filteredBuildings at hmem
      obtain ⟨b, hbmem, hcase⟩ := mem_mapFilterPolygon models _ [] _ hmem
      have hbdata := (List.mem_filter.1 hbmem).1
      have hbwithin := (List.mem_filter.1 hbmem).2
      have hid : B.id = b.id := by
        rcases hcase with h | ⟨m, hm, hm0, h⟩
        · have := congrArg PolyData.id h
          simpa [passthrough] using this
        · exfalso
          have := congrArg PolyData.modelId h
          simp [passthrough, substEntry] at this
      have hbB : b = B :=
        List.inj_on_of_nodup_map hnodup hbdata hB hid.symm
      rw [← hbB]
      exact hbwithin
    · intro hwithin
      unfold filteredBuildings
      exact passthrough_mem_mapFilterPolygon models B hnone _
        (List.mem_filter.2 ⟨hB, hwithin⟩) []
  refine ⟨hiff.trans (isBuildingWithinDistance_iff_sqrt B pos d),
    fun hwithin => ?_⟩
  have hmem := hiff.2 hwithin
  unfold processQuery responseBuildings
  exact List.mem_map.2 ⟨passthrough B, hmem, rfl⟩

/-- Witness for C2 at a concrete input: the unmapped building `"A"` with a
vertex at the origin is returned unchanged for the query at the origin
with distance `5`. -/
theorem C2_unmapped_inclusion_witness :
    (0 : ℚ) ≤ 5
    ∧ (([plainBuilding].map Building.id).Nodup)
    ∧ plainBuilding ∈ [plainBuilding]
    ∧ modelsCache modelsData plainBuilding.id = none
    ∧ (passthrough plainBuilding ∈
          filteredBuildings modelsData [plainBuilding] originPoint 5 ↔
        ∃ node ∈ plainBuilding.nodes,
          Real.sqrt ((calculateDistanceSq node originPoint : ℚ) : ℝ) ≤
            ((5 : ℚ) : ℝ)) := by
  have hd : (0 : ℚ) ≤ 5 := by norm_num
  have hnodup : (([plainBuilding] : List Building).map Building.id).Nodup := by
    simp
  have hB : plainBuilding ∈ [plainBuilding] := List.mem_singleton.2 rfl
  have hnone : modelsCache modelsData plainBuilding.id = none := by
    simp [modelsCache, modelsData, plainBuilding]
  exact ⟨hd, hnodup, hB, hnone,
    (C2_unmapped_inclusion modelsData [plainBuilding] plainBuilding
      originPoint 5 hd hnodup hB hnone).1⟩

/-- C1 counterexample: at a concrete query whose candidate set contains
two buildings of model group `"1"`, the single response entry has empty
`nodes` but carries neither `modelId` nor `modelUrl` — the final response
projection strips them, contrary to the claim. -/
theorem C1_counterexample :
    2 ≤ (dedupExample.filter
          (fun b => isBuildingWithinDistance b originPoint 1)).countP
            (fun b => modelsCache modelsData b.id == some "1")
    ∧ processQuery modelsData dedupExample originPoint 1 =
        [{ address := some "Main St 1", height := 10, nodes := [],
           modelId := none, modelUrl := none }] := by
  constructor
  · simp [dedupExample, isBuildingWithinDistance, distanceLE,
      calculateDistanceSq, originPoint, List.countP_cons, modelsCache,
      modelsData]
  · simp [processQuery, responseBuildings, filteredBuildings,
      mapFilterPolygon, filterPolygon, modelsCache, modelsData, dedupExample,
      isBuildingWithinDistance, distanceLE, calculateDistanceSq, originPoint,
      substEntry, passthrough, List.filter, List.filterMap, List.find?]

/-- C1 amended: with two or more same-group candidates, exactly one entry
for that group survives the substitution pass; it has empty `nodes` and
its address and height come from a candidate of that group; but the final
response projection strips `modelId` and `modelUrl`, so no response entry
carries them. -/
theorem C1_amended_dedup (models : List ModelEntry) (data : List Building)
    (pos : Point) (d : ℚ) (g : String) (hg : g ≠ "")
    (h2 : 2 ≤ (data.filter
        (fun b => isBuildingWithinDistance b pos d)).countP
          (fun b => modelsCache models b.id == some g)) :
    (filteredBuildings models data pos d).countP
        (fun r => r.modelId == some g) = 1
    ∧ (∀ r ∈ filteredBuildings models data pos d, r.modelId = some g →
        r.nodes = [] ∧
          ∃ b ∈ data.filter (fun b => isBuildingWithinDistance b pos d),
            modelsCache models b.id = some g ∧ r.address = b.address ∧
              r.height = b.height)
    ∧ ∀ r ∈ processQuery models data pos d,
        r.modelId = none ∧ r.modelUrl = none := by
  refine ⟨?_, ?_, ?_⟩
  · unfold filteredBuildings
    rw [countP_mapFilterPolygon models g hg _ []]
    have hpos : 0 < (data.filter
        (fun b => isBuildingWithinDistance b pos d)).countP
          (fun b => modelsCache models b.id == some g) :=
      lt_of_lt_of_le (by norm_num) h2
    obtain ⟨b, hb, hpb⟩ := List.countP_pos_iff.1 hpos
    have hgrp : hasGroup models g
        (data.filter (fun b => isBuildingWithinDistance b pos d)) = true := by
      simp only [hasGroup, List.any_eq_true]
      exact ⟨b, hb, hpb⟩
    rw [if_neg (List.not_mem_nil g), hgrp, if_pos rfl]
  · intro r hr hrm
    obtain ⟨b, hb, hcase⟩ := mem_mapFilterPolygon models _ [] r hr
    rcases hcase with h | ⟨m, hmc, hm0, h⟩
    · rw [h] at hrm
      simp [passthrough] at hrm
    · have hmg : m = g := by
        rw [h] at hrm
        simpa [substEntry] using hrm
      subst hmg
      rw [h]
      exact ⟨rfl, b, hb, hmc, rfl, rfl⟩
  · intro r hr
    unfold processQuery responseBuildings at hr
    obtain ⟨p, hp, rfl⟩ := List.mem_map.1 hr
    exact ⟨rfl, rfl⟩

/-- Witness for the amended C1 at a concrete input: both buildings of
`dedupExample` are candidates of group `"1"`, and exactly one entry for
that group survives. -/
theorem C1_amended_dedup_witness :
    ("1" : String) ≠ ""
    ∧ 2 ≤ (dedupExample.filter
          (fun b => isBuildingWithinDistance b originPoint 1)).countP
            (fun b => modelsCache modelsData b.id == some "1")
    ∧ (filteredBuildings modelsData dedupExample originPoint 1).countP
        (fun r => r.modelId == some "1") = 1 := by
  have hg : ("1" : String) ≠ "" := by simp
  have h2 : 2 ≤ (dedupExample.filter
      (fun b => isBuildingWithinDistance b originPoint 1)).countP
        (fun b => modelsCache modelsData b.id == some "1") := by
    simp [dedupExample, isBuildingWithinDistance, distanceLE,
      calculateDistanceSq, originPoint, List.countP_cons, modelsCache,
      modelsData]
  exact ⟨hg, h2,
    (C1_amended_dedup modelsData dedupExample originPoint 1 "1" hg h2).1⟩

/-- C3: a request body that fails the schema (missing `position` or
`distance`, missing numeric `x` or `z`, or negative `distance`) is
rejected with a client error, and the outcome does not depend on the
dataset — the scan is never executed. -/
theorem C3_invalid_rejected (models : List ModelEntry)
    (data : List Building) (body : RequestBody)
    (hbad : validateBody body = false) :
    (∃ msg, handleBuildings models data body = Except.error msg)
    ∧ ∀ data2 : List Building,
        handleBuildings models data body = handleBuildings models data2 body := by
  rcases body with ⟨pos, dist⟩
  rcases pos with _ | p
  · rcases dist with _ | d
    · exact ⟨⟨_, rfl⟩, fun data2 => rfl⟩
    · exact ⟨⟨_, rfl⟩, fun data2 => rfl⟩
  · rcases dist with _ | d
    · exact ⟨⟨_, rfl⟩, fun data2 => rfl⟩
    · rcases p with ⟨px, pz⟩
      rcases px with _ | x
      · exact ⟨⟨_, rfl⟩, fun data2 => rfl⟩
      · rcases pz with _ | z
        · exact ⟨⟨_, rfl⟩, fun data2 => rfl⟩
        · have hd : ¬(0 ≤ d) := by
            simpa [validateBody] using hbad
          constructor
          · refine ⟨"body/distance must be >= 0", ?_⟩
            simp [handleBuildings, hd]
          · intro data2
            simp [handleBuildings, hd]

/-- Witness for C3 at a concrete input: `distance = -1` is rejected. -/
theorem C3_invalid_rejected_witness :
    validateBody negativeDistanceBody = false
    ∧ (∃ msg, handleBuildings modelsData [plainBuilding]
        negativeDistanceBody = Except.error msg)
    ∧ ∀ data2 : List Building,
        handleBuildings modelsData [plainBuilding] negativeDistanceBody =
          handleBuildings modelsData data2 negativeDistanceBody := by
  have hbad : validateBody negativeDistanceBody = false := by
    simp [validateBody, negativeDistanceBody]
  obtain ⟨h1, h2⟩ := C3_invalid_rejected modelsData [plainBuilding] _ hbad
  exact ⟨hbad, h1, h2⟩

/-- C4: the dedup state is per-invocation: running a query after any other
query yields exactly the result of running it alone — queries do not
influence one another through server state. -/
theorem C4_query_independence (s : ServerState) (q1 q2 : Query) :
    (serverQuery (serverQuery s q1).2 q2).1 = (serverQuery s q2).1 := rfl

/-- C5: the response, projected to the pass-through fields, is a sublist
of the dataset projected the same way: original order is preserved and no
re-sorting happens. -/
theorem C5_order_preserved (models : List ModelEntry) (data : List Building)
    (pos : Point) (d : ℚ) :
    ((processQuery models data pos d).map
        (fun r => (r.address, r.height))).Sublist
      (data.map (fun b => (b.address, b.height))) := by
  have h1 := mapFilterPolygon_sublist models
    (data.filter (fun b => isBuildingWithinDistance b pos d)) []
  have h2 : (processQuery models data pos d).map
      (fun r => (r.address, r.height)) =
      (filteredBuildings models data pos d).map
        (fun r => (r.address, r.height)) := by
    unfold processQuery responseBuildings
    rw [List.map_map]
    rfl
  rw [h2]
  unfold filteredBuildings
  exact h1.trans ((List.filter_sublist _).map _)

/-- C8: a query mutates nothing: the state left behind by a handler
invocation is exactly the state it received — in particular the building
list and the model mapping are unchanged. -/
theorem C8_no_mutation (s : ServerState) (q : Query) :
    (serverQuery s q).2 = s
    ∧ (serverQuery s q).2.buildingsData = s.buildingsData
    ∧ (serverQuery s q).2.models = s.models :=
  ⟨rfl, rfl, rfl⟩

/-- C9: every substituted entry of the filtered list carries a defined
`modelUrl`: the model-group lookup in the static model list succeeds for
every id the cache maps, because every cache binding was placed there from
an entry of that list. -/
theorem C9_substitution_url_defined (models : List ModelEntry)
    (data : List Building) (pos : Point) (d : ℚ) (r : PolyData)
    (hr : r ∈ filteredBuildings models data pos d)
    (hm : r.modelId.isSome = true) : r.modelUrl.isSome = true := by
  obtain ⟨b, hb, hcase⟩ := mem_mapFilterPolygon models _ [] r hr
  rcases hcase with h | ⟨m, hmc, hm0, h⟩
  · rw [h] at hm
    simp [passthrough] at hm
  · rw [h]
    simp only [substEntry]
    obtain ⟨e, he, hem⟩ := modelsCache_some_mem models b.id m hmc
    rcases ho : models.find? (fun d2 => decide (d2.modelId = m)) with _ | e2
    · rw [List.find?_eq_none] at ho
      exact absurd (by simp [hem]) (ho e he)
    · rw [ho]
      rfl

/-- Witness for C9 at a concrete input: the substituted entry produced by
the `dedupExample` query carries `modelUrl = "/itc.fbx"`. -/
theorem C9_substitution_url_defined_witness :
    substExample ∈ filteredBuildings modelsData dedupExample originPoint 1
    ∧ substExample.modelId.isSome = true
    ∧ substExample.modelUrl.isSome = true := by
  have hr : substExample ∈
      filteredBuildings modelsData dedupExample originPoint 1 := by
    simp [substExample, filteredBuildings, mapFilterPolygon, filterPolygon,
      modelsCache, modelsData, dedupExample, isBuildingWithinDistance,
      distanceLE, calculateDistanceSq, originPoint, substEntry, passthrough,
      List.filter, List.filterMap, List.find?]
  have hm : substExample.modelId.isSome = true := rfl
  exact ⟨hr, hm,
    C9_substitution_url_defined modelsData dedupExample originPoint 1
      substExample hr hm⟩

end Theorems

end ServeBuildings

